import Mathlib

/-!
Shallow embedding of `train_rnn.py` (CERP_Pytorch): the PpkNet RNN training
loop, its train/valid step functions, checkpoint writer and metric logger.

External collaborators (the PpkNet model, the zarr-backed `Sequences` dataset,
the Adam optimizer internals, the cross-entropy criterion and the autograd
engine) are abstracted as parameters: the model parameter vector is an opaque
type `P`, the forward pass, criterion, gradient and optimizer update are
function-valued fields.  Everything the loop itself does (global-step
arithmetic, checkpoint/summary scheduling, filename formatting, the
break-after-one-batch validation draw, the NameError on an empty validation
iterator) is modelled concretely and executably.

Numeric scalars (accuracies, losses, timing errors) are modelled as `ℚ`.
-/

/-- Python `config.Config()`: the scalar hyperparameters read in `main()`
(lines 24-35 of train_rnn.py). -/
structure Config where
  rnn_lr : ℚ
  rnn_num_epochs : Nat
  rnn_summary_step : Nat
  rnn_ckpt_step : Nat
  to_init_rnn : Bool
  num_steps : ℚ
  step_stride : ℚ
  rnn_batch_size : Nat
  rnn_num_workers : Nat

/-- Command line arguments of train_rnn.py (lines 131-137). `--resume`
defaults to False and is never read after parsing. -/
structure Args where
  gpu_idx : String
  zarr_path : String
  ckpt_dir : String
  resume : Bool

/-- Scalars appended per logging event (lines 78-80): the three scalar
groups sum_loss, sum_acc (accuracies scaled by 100) and sum_dt. -/
structure SummaryRec where
  train_loss : ℚ
  valid_loss : ℚ
  train_acc : ℚ
  valid_acc : ℚ
  train_dt : ℚ
  valid_dt : ℚ

/-- Observable effects of one run: a checkpoint file write
(`torch.save(model.state_dict(), path)`, line 64) or a summary
(print + `writer.add_scalars`, lines 74-84).  A summary records which
validation index-batches were drawn from the valid loader before logging. -/
inductive Event (P : Type) where
  | ckpt (global_step epoch_idx iter_idx : Nat) (path : String) (state_dict : P)
  | summary (global_step : Nat) (drawn : List (List Nat)) (rec : SummaryRec)

/-- Result of running the training loop: the ordered effect trace, the
uncaught exception if one aborted the run, and the final model parameters. -/
structure RunResult (P : Type) where
  events : List (Event P)
  error : Option String
  finalParams : P

/-- External collaborators of the loop, abstracted: initial model parameters,
the optional weight initializer (`model.apply(init_weights)`, line 45), the
net effect of `train_step` on the parameters together with the returned
(accuracy, loss), the metrics returned by `valid_step` on a drawn batch, and
the index stream produced by `RandomSampler(valid_set, replacement=True)`
for the traversal starting at a given global step (line 39). -/
structure Hooks (P : Type) where
  init : P
  initW : P → P
  trainF : P → Nat × Nat → P × ℚ × ℚ
  validF : P → List Nat → ℚ × ℚ
  validSamples : Nat → List Nat

/-- `len(train_loader)` (line 41): `DataLoader` with `drop_last=False`
reports `ceil(dataset_len / batch_size)` batches. -/
def lenDataLoader (dataset_len batch_size : Nat) : Nat :=
  (dataset_len + batch_size - 1) / batch_size

/-- `global_step = num_batch * epoch_idx + iter_idx` (line 57). -/
def global_step_of (num_batch epoch_idx iter_idx : Nat) : Nat :=
  num_batch * epoch_idx + iter_idx

/-- The iteration space of the nested loop (lines 55-56): epochs 0..E-1,
each enumerating the per-epoch batches 0..B-1 in order. -/
def iterSeq (num_epochs num_batch : Nat) : List (Nat × Nat) :=
  (List.range num_epochs).flatMap fun e => (List.range num_batch).map fun i => (e, i)

/-- `global_step % interval == 0`: the trigger of both the checkpoint writer
(line 63) and the metric logger (line 66, there phrased as `!= 0: continue`).
Python raises ZeroDivisionError when the interval is 0; theorems therefore
assume positive intervals. -/
def firesAt (interval global_step : Nat) : Bool :=
  global_step % interval == 0

/-- Python decimal digits of a natural number: the embedding of
`'%s' % n` for a non-negative int (most significant digit first). -/
def natDigits (n : Nat) : List Char :=
  if n < 10 then [Char.ofNat (48 + n)]
  else natDigits (n / 10) ++ [Char.ofNat (48 + n % 10)]
termination_by n
decreasing_by
  simp only [not_lt] at *
  exact Nat.div_lt_self (by omega) (by omega)

/-- Checkpoint filename `'%s_%s-%s.ckpt' % (global_step, epoch_idx, iter_idx)`
(line 64). -/
def ckptName (global_step epoch_idx iter_idx : Nat) : String :=
  String.mk (natDigits global_step ++ '_' ::
    (natDigits epoch_idx ++ '-' ::
      (natDigits iter_idx ++ ['.', 'c', 'k', 'p', 't'])))

/-- `os.path.join(ckpt_dir, name)` (line 64), for a directory without a
trailing separator. -/
def pathJoin (dir name : String) : String :=
  dir ++ "/" ++ name

/-- Estimated timing error from accuracy (lines 61 and 71, the same formula
on the train and valid sides):
`num_steps * (1 - acc) * step_stride / 2`. -/
def timingError (num_steps step_stride acc : ℚ) : ℚ :=
  num_steps * (1 - acc) * step_stride / 2

/-- The record logged at a summary step (lines 74-84): losses as computed,
accuracies scaled by 100, timing errors derived from the accuracies. -/
def mkSummaryRec (cfg : Config) (train_acc train_loss valid_acc valid_loss : ℚ) :
    SummaryRec :=
  { train_loss := train_loss
    valid_loss := valid_loss
    train_acc := train_acc * 100
    valid_acc := valid_acc * 100
    train_dt := timingError cfg.num_steps cfg.step_stride train_acc
    valid_dt := timingError cfg.num_steps cfg.step_stride valid_acc }

/-- Fuel-indexed chunking helper for `batchChunks`. -/
def batchChunksAux (batch_size : Nat) : Nat → List α → List (List α)
  | 0, _ => []
  | _, [] => []
  | fuel + 1, x :: t =>
    (x :: t).take batch_size :: batchChunksAux batch_size fuel ((x :: t).drop batch_size)

/-- `BatchSampler(sampler, batch_size, drop_last=False)`: groups the sampled
index stream into consecutive chunks of `batch_size`, the last chunk possibly
shorter (`batchChunksAux` recurses on the stream length as structural fuel;
a positive `batch_size` consumes at least one element per chunk, so the fuel
never runs out).  `BatchSampler` rejects `batch_size <= 0` at construction,
modelled as the empty batch list. -/
def batchChunks (batch_size : Nat) (xs : List α) : List (List α) :=
  if batch_size = 0 then [] else batchChunksAux batch_size xs.length xs

/-- The body of the training loop (lines 56-84), one recursive call per
`(epoch_idx, iter_idx)` iteration.  Per iteration it runs `train_step`,
writes a checkpoint when `global_step % ckpt_step == 0`, and when
`global_step % summary_step != 0` skips the rest (`continue`); otherwise it
draws the first batch from the valid loader (the `break` after one batch is
the match on the head chunk), runs `valid_step`, and logs.  If the valid
loader yields no batch and `valid_acc`/`valid_loss` were never assigned
(`none`), the format call at line 74 raises NameError, aborting the run. -/
def runIters (cfg : Config) (ckpt_dir : String) (hk : Hooks P) (num_batch : Nat) :
    List (Nat × Nat) → P → Option (ℚ × ℚ) → RunResult P
  | [], params, _ => { events := [], error := none, finalParams := params }
  | (epoch_idx, iter_idx) :: rest, params, validVars =>
    let gs := global_step_of num_batch epoch_idx iter_idx
    let tr := hk.trainF params (epoch_idx, iter_idx)
    let ck : List (Event P) :=
      if firesAt cfg.rnn_ckpt_step gs then
        [Event.ckpt gs epoch_idx iter_idx
          (pathJoin ckpt_dir (ckptName gs epoch_idx iter_idx)) tr.1]
      else []
    if firesAt cfg.rnn_summary_step gs then
      match batchChunks cfg.rnn_batch_size (hk.validSamples gs) with
      | b :: _ =>
        let vv := hk.validF tr.1 b
        let r := runIters cfg ckpt_dir hk num_batch rest tr.1 (some vv)
        { events := ck ++ Event.summary gs [b]
            (mkSummaryRec cfg tr.2.1 tr.2.2 vv.1 vv.2) :: r.events
          error := r.error
          finalParams := r.finalParams }
      | [] =>
        match validVars with
        | none =>
          { events := ck
            error := some "NameError: valid_acc is not defined"
            finalParams := tr.1 }
        | some vv =>
          let r := runIters cfg ckpt_dir hk num_batch rest tr.1 (some vv)
          { events := ck ++ Event.summary gs []
              (mkSummaryRec cfg tr.2.1 tr.2.2 vv.1 vv.2) :: r.events
            error := r.error
            finalParams := r.finalParams }
    else
      let r := runIters cfg ckpt_dir hk num_batch rest tr.1 validVars
      { events := ck ++ r.events, error := r.error, finalParams := r.finalParams }

/-- `main()` (lines 17-84): compute `num_batch = len(train_loader)`,
optionally apply the weight initializer, then drive the epoch x batch loop.
`valid_acc`/`valid_loss` start unassigned (`none`). -/
def mainRun (cfg : Config) (args : Args) (hk : Hooks P) (trainLen : Nat) :
    RunResult P :=
  let num_batch := lenDataLoader trainLen cfg.rnn_batch_size
  let params0 := if cfg.to_init_rnn then hk.initW hk.init else hk.init
  runIters cfg args.ckpt_dir hk num_batch
    (iterSeq cfg.rnn_num_epochs num_batch) params0 none

/-- Checkpoint writes of a trace, projected to
(global_step, epoch_idx, iter_idx, path). -/
def ckptData {P : Type} : List (Event P) → List (Nat × Nat × Nat × String)
  | [] => []
  | Event.ckpt gs e i path _ :: rest => (gs, e, i, path) :: ckptData rest
  | Event.summary _ _ _ :: rest => ckptData rest

/-- Summary events of a trace, projected to
(global_step, drawn validation batches). -/
def summaryData {P : Type} : List (Event P) → List (Nat × List (List Nat))
  | [] => []
  | Event.summary gs drawn _ :: rest => (gs, drawn) :: summaryData rest
  | Event.ckpt _ _ _ _ _ :: rest => summaryData rest

/-- `model.train()` / `model.eval()` (lines 89 and 106) toggle this flag;
it selects whether stochastic regularization is active in the forward pass. -/
inductive Mode where
  | train : Mode
  | eval : Mode
deriving DecidableEq

/-- The mutable state touched by `train_step` / `valid_step`: the model
parameters, the accumulated gradients (`param.grad`, reset by
`optimizer.zero_grad()` and accumulated by `loss.backward()`), and the
train/eval mode flag. -/
structure NetState (P G : Type) where
  params : P
  grads : G
  mode : Mode

/-- The external numeric engine as used by `train_step` / `valid_step`:
`fwd p m data` is `model(data)` (per-sample, per-time-step 3-way logits,
shape [batch, seq, 3]); `crit` is `nn.CrossEntropyLoss()` on the flattened
logits/labels; `gradF p data target` is the gradient of the loss at `p`
that `loss.backward()` accumulates into `.grad`; `upd p g` is the parameter
vector after `optimizer.step()` applies the update for gradient `g`. -/
structure ModelEnv (P G D : Type) where
  fwd : P → Mode → D → List (List (ℚ × ℚ × ℚ))
  crit : List (ℚ × ℚ × ℚ) → List Nat → ℚ
  gradF : P → D → List Nat → G
  upd : P → G → P

/-- `torch.argmax(row)` over the 3 class logits of one time step: index of
the first maximal entry. -/
def argmax3 (r : ℚ × ℚ × ℚ) : Nat :=
  if r.2.1 ≤ r.1 ∧ r.2.2 ≤ r.1 then 0
  else if r.2.2 ≤ r.2.1 then 1
  else 2

/-- The shared forward computation of `train_step` (lines 91-96) and
`valid_step` (lines 108-113), identical in the source up to the mode:
`pred_logits = model(data).view(-1,3)`, `pred_class = argmax(pred_logits,1)`,
`target = target.view(-1)`, `loss = criterion(pred_logits, target)`,
`acc_seq = pred_class.eq(target).sum() / float(target.size(0))`.
Returns `(acc_seq, loss)`. -/
def forwardMetrics (M : ModelEnv P G D) (p : P) (m : Mode) (data : D)
    (target : List (List Nat)) : ℚ × ℚ :=
  let pred_logits := (M.fwd p m data).flatten
  let pred_class := pred_logits.map argmax3
  let tgt := target.flatten
  let loss := M.crit pred_logits tgt
  let acc_seq :=
    (((pred_class.zip tgt).countP fun pc => pc.1 == pc.2 : Nat) : ℚ)
      / (tgt.length : ℚ)
  (acc_seq, loss)

/-- `train_step` (lines 88-101): set train mode, forward, then
`optimizer.zero_grad()`, `loss.backward()` (gradient accumulation into the
zeroed `.grad`), `optimizer.step()`.  Returns `(acc_seq, loss)` and the
mutated state. -/
def train_step [Zero G] [Add G] (M : ModelEnv P G D) (s : NetState P G)
    (data : D) (target : List (List Nat)) : (ℚ × ℚ) × NetState P G :=
  let s0 : NetState P G := { s with mode := Mode.train }
  let metrics := forwardMetrics M s0.params Mode.train data target
  let s1 : NetState P G := { s0 with grads := 0 }
  let s2 : NetState P G := { s1 with grads := s1.grads + M.gradF s1.params data target.flatten }
  let s3 : NetState P G := { s2 with params := M.upd s2.params s2.grads }
  (metrics, s3)

/-- `valid_step` (lines 105-114): set eval mode and run the same forward
computation; no gradient is formed and no parameter is updated. -/
def valid_step (M : ModelEnv P G D) (s : NetState P G)
    (data : D) (target : List (List Nat)) : (ℚ × ℚ) × NetState P G :=
  let s0 : NetState P G := { s with mode := Mode.eval }
  (forwardMetrics M s0.params Mode.eval data target, s0)

/-! ### Concrete fixtures used by the witness theorems -/

/-- Concrete config: 2 epochs, summary every step, checkpoint every 2 steps,
batch size 1. -/
def cfgW : Config :=
  { rnn_lr := 1/1000, rnn_num_epochs := 2, rnn_summary_step := 1,
    rnn_ckpt_step := 2, to_init_rnn := false, num_steps := 16,
    step_stride := 2, rnn_batch_size := 1, rnn_num_workers := 0 }

/-- Concrete config for the C8 scenario: summary interval 1, training batch
size 2, one epoch. -/
def cfg8 : Config :=
  { rnn_lr := 1/1000, rnn_num_epochs := 1, rnn_summary_step := 1,
    rnn_ckpt_step := 1, to_init_rnn := false, num_steps := 0,
    step_stride := 0, rnn_batch_size := 2, rnn_num_workers := 0 }

/-- Concrete CLI arguments. -/
def argsW : Args :=
  { gpu_idx := "0", zarr_path := "data.zarr",
    ckpt_dir := "output/example_ckpt/PpkNet", resume := false }

/-- Concrete hooks over trivial parameters: a validation split of size 1. -/
def hkW : Hooks Unit :=
  { init := (), initW := id, trainF := fun _ _ => ((), 1, 0),
    validF := fun _ _ => (1, 0), validSamples := fun _ => [0] }

/-- Concrete hooks for the C8 scenario: a validation split of size 4
(`RandomSampler` emits 4 indices per traversal). -/
def hk8 : Hooks Unit :=
  { init := (), initW := id, trainF := fun _ _ => ((), 1, 0),
    validF := fun _ _ => (1, 0), validSamples := fun _ => [0, 1, 2, 3] }

/-- Concrete hooks with an empty validation split: `RandomSampler` yields no
indices. -/
def hkEmpty : Hooks Unit :=
  { init := (), initW := id, trainF := fun _ _ => ((), 1, 0),
    validF := fun _ _ => (1, 0), validSamples := fun _ => [] }

/-- Concrete model environment over trivial parameter/gradient types. -/
def envW : ModelEnv Unit ℚ Unit :=
  { fwd := fun _ _ _ => [[(1, 0, 0), (0, 1, 0)]],
    crit := fun _ _ => 7/10,
    gradF := fun _ _ _ => 3,
    upd := fun p _ => p }

/-- Concrete net state. -/
def sW : NetState Unit ℚ :=
  { params := (), grads := 5, mode := Mode.eval }

/-! ### Decimal formatting: `natDigits` is an injective digit string -/

theorem natDigits_foldl (n : Nat) :
    ∀ a : Nat, (natDigits n).foldl (fun a c => 10 * a + (c.toNat - 48)) a
      = a * 10 ^ (natDigits n).length + n := by
  induction n using Nat.strong_induction_on with
  | _ n ih =>
    intro a
    by_cases h : n < 10
    · rw [natDigits, if_pos h]
      have hc : (Char.ofNat (48 + n)).toNat - 48 = n := by
        interval_cases n <;> decide
      simp [List.foldl, hc]
      ring
    · rw [natDigits, if_neg h]
      rw [List.foldl_append]
      rw [ih (n / 10) (Nat.div_lt_self (by omega) (by omega)) a]
      have hc : (Char.ofNat (48 + n % 10)).toNat - 48 = n % 10 := by
        have : n % 10 < 10 := Nat.mod_lt _ (by omega)
        interval_cases hm : (n % 10) <;> simp [hm]
      simp only [List.foldl, List.length_append, List.length_cons,
        List.length_nil, hc]
      have hdm : 10 * (n / 10) + n % 10 = n := Nat.div_add_mod n 10
      calc 10 * (a * 10 ^ (natDigits (n / 10)).length + n / 10) + n % 10
          = a * (10 ^ (natDigits (n / 10)).length * 10)
              + (10 * (n / 10) + n % 10) := by ring
        _ = a * 10 ^ ((natDigits (n / 10)).length + 1) + n := by
            rw [hdm, pow_succ]

theorem natDigits_injective : Function.Injective natDigits := by
  intro m n h
  have hm := natDigits_foldl m 0
  have hn := natDigits_foldl n 0
  rw [h] at hm
  simp only [zero_mul, zero_add] at hm hn
  rw [hm] at hn
  exact hn

theorem natDigits_range (n : Nat) :
    ∀ c ∈ natDigits n, 48 ≤ c.toNat ∧ c.toNat ≤ 57 := by
  induction n using Nat.strong_induction_on with
  | _ n ih =>
    intro c hc
    by_cases h : n < 10
    · rw [natDigits, if_pos h] at hc
      simp only [List.mem_singleton] at hc
      subst hc
      interval_cases n <;> decide
    · rw [natDigits, if_neg h] at hc
      rcases List.mem_append.mp hc with h1 | h2
      · exact ih (n / 10) (Nat.div_lt_self (by omega) (by omega)) c h1
      · simp only [List.mem_singleton] at h2
        subst h2
        have hlt : n % 10 < 10 := Nat.mod_lt _ (by omega)
        interval_cases hm : (n % 10) <;> simp [hm]

theorem natDigits_not_underscore (n : Nat) : '_' ∉ natDigits n := by
  intro hmem
  have := natDigits_range n '_' hmem
  revert this
  decide

theorem natDigits_not_dash (n : Nat) : '-' ∉ natDigits n := by
  intro hmem
  have := natDigits_range n '-' hmem
  revert this
  decide

theorem append_sep_inj {sep : Char} :
    ∀ (a c b d : List Char), a ++ sep :: b = c ++ sep :: d →
      sep ∉ a → sep ∉ c → a = c ∧ b = d := by
  intro a
  induction a with
  | nil =>
    intro c b d h _ hc
    cases c with
    | nil =>
      simp only [List.nil_append, List.cons.injEq] at h
      exact ⟨rfl, h.2⟩
    | cons y ys =>
      simp only [List.nil_append, List.cons_append, List.cons.injEq] at h
      exact absurd (h.1 ▸ List.mem_cons_self y ys) hc
  | cons x xs ih =>
    intro c b d h ha hc
    cases c with
    | nil =>
      simp only [List.cons_append, List.nil_append, List.cons.injEq] at h
      exact absurd (h.1 ▸ List.mem_cons_self x xs) ha
    | cons y ys =>
      simp only [List.cons_append, List.cons.injEq] at h
      have hxs : sep ∉ xs := fun hm => ha (List.mem_cons_of_mem _ hm)
      have hys : sep ∉ ys := fun hm => hc (List.mem_cons_of_mem _ hm)
      obtain ⟨heq, htl⟩ := ih ys b d h.2 hxs hys
      exact ⟨by rw [h.1, heq], htl⟩

theorem ckptName_inj {g1 e1 i1 g2 e2 i2 : Nat}
    (h : ckptName g1 e1 i1 = ckptName g2 e2 i2) :
    g1 = g2 ∧ e1 = e2 ∧ i1 = i2 := by
  unfold ckptName at h
  have hl : natDigits g1 ++ '_' :: (natDigits e1 ++ '-' :: (natDigits i1 ++ ['.', 'c', 'k', 'p', 't']))
      = natDigits g2 ++ '_' :: (natDigits e2 ++ '-' :: (natDigits i2 ++ ['.', 'c', 'k', 'p', 't'])) := by
    injection h
  obtain ⟨hg, hrest⟩ :=
    append_sep_inj _ _ _ _ hl (natDigits_not_underscore g1) (natDigits_not_underscore g2)
  obtain ⟨he, hi⟩ :=
    append_sep_inj _ _ _ _ hrest (natDigits_not_dash e1) (natDigits_not_dash e2)
  have hlen : (natDigits i1).length = (natDigits i2).length := by
    have := congrArg List.length hi
    simp only [List.length_append] at this
    omega
  have hid : natDigits i1 = natDigits i2 := (List.append_inj hi hlen).1
  exact ⟨natDigits_injective hg, natDigits_injective he, natDigits_injective hid⟩

theorem pathJoin_inj {dir a b : String} (h : pathJoin dir a = pathJoin dir b) :
    a = b := by
  unfold pathJoin at h
  cases a with
  | mk da =>
    cases b with
    | mk db =>
      cases dir with
      | mk dd =>
        simp only [HAppend.hAppend, Append.append, String.append] at h
        have hl : dd ++ "/".data ++ da = dd ++ "/".data ++ db := by injection h
        have := List.append_cancel_left hl
        rw [this]

/-! ### Batch sampler and trace-projection lemmas -/

theorem batchChunks_nil (bs : Nat) : batchChunks bs ([] : List α) = [] := by
  rw [batchChunks]
  split
  · rfl
  · rfl

theorem batchChunks_head {bs : Nat} {xs b : List α} {rest : List (List α)}
    (h : batchChunks bs xs = b :: rest) : b = xs.take bs := by
  rw [batchChunks] at h
  split at h
  · cases h
  · cases xs with
    | nil => cases h
    | cons x t =>
      rw [List.length_cons, batchChunksAux] at h
      injection h with h1 _
      exact h1.symm

theorem batchChunks_ne_nil {bs : Nat} {xs : List α} (hbs : bs ≠ 0)
    (hxs : xs ≠ []) : batchChunks bs xs ≠ [] := by
  rw [batchChunks, if_neg hbs]
  cases xs with
  | nil => exact absurd rfl hxs
  | cons x t =>
    rw [List.length_cons, batchChunksAux]
    simp

theorem ckptData_append {P : Type} (a b : List (Event P)) :
    ckptData (a ++ b) = ckptData a ++ ckptData b := by
  induction a with
  | nil => rfl
  | cons ev t ih =>
    cases ev with
    | ckpt gs e i path sd => simp [ckptData, ih]
    | summary gs drawn rec => simp [ckptData, ih]

theorem summaryData_append {P : Type} (a b : List (Event P)) :
    summaryData (a ++ b) = summaryData a ++ summaryData b := by
  induction a with
  | nil => rfl
  | cons ev t ih =>
    cases ev with
    | ckpt gs e i path sd => simp [summaryData, ih]
    | summary gs drawn rec => simp [summaryData, ih]

/-! ### The schedule of the training loop -/

/-- Characterization of a non-aborting run over an arbitrary iteration list:
no error is raised, the checkpoint events are exactly the iterations whose
global step fires the checkpoint trigger (with path as formatted at line 64),
and the summary events are exactly the iterations whose global step fires the
summary trigger, each drawing the single head batch of the freshly sampled
validation stream. -/
theorem runIters_trace (cfg : Config) (dir : String) (hk : Hooks P) (nb : Nat)
    (hvs : ∀ gs, batchChunks cfg.rnn_batch_size (hk.validSamples gs) ≠ []) :
    ∀ (l : List (Nat × Nat)) (p : P) (vm : Option (ℚ × ℚ)),
      (runIters cfg dir hk nb l p vm).error = none
      ∧ ckptData (runIters cfg dir hk nb l p vm).events
          = (l.filter fun ei => firesAt cfg.rnn_ckpt_step (global_step_of nb ei.1 ei.2)).map
              (fun ei => (global_step_of nb ei.1 ei.2, ei.1, ei.2,
                pathJoin dir (ckptName (global_step_of nb ei.1 ei.2) ei.1 ei.2)))
      ∧ summaryData (runIters cfg dir hk nb l p vm).events
          = (l.filter fun ei => firesAt cfg.rnn_summary_step (global_step_of nb ei.1 ei.2)).map
              (fun ei => (global_step_of nb ei.1 ei.2,
                [(hk.validSamples (global_step_of nb ei.1 ei.2)).take cfg.rnn_batch_size])) := by
  intro l
  induction l with
  | nil => intro p vm; exact ⟨rfl, rfl, rfl⟩
  | cons ei rest ih =>
    intro p vm
    obtain ⟨e, i⟩ := ei
    simp only [runIters]
    cases hS : firesAt cfg.rnn_summary_step (global_step_of nb e i) with
    | false =>
      simp only [hS, Bool.false_eq_true, if_false]
      obtain ⟨ihe, ihc, ihs⟩ := ih (hk.trainF p (e, i)).1 vm
      refine ⟨ihe, ?_, ?_⟩
      · rw [ckptData_append, ihc, List.filter_cons]
        cases hK : firesAt cfg.rnn_ckpt_step (global_step_of nb e i) with
        | false => simp [hK, ckptData]
        | true => simp [hK, ckptData]
      · rw [summaryData_append, ihs, List.filter_cons]
        cases hK : firesAt cfg.rnn_ckpt_step (global_step_of nb e i) with
        | false => simp [hK, hS, summaryData]
        | true => simp [hK, hS, summaryData]
    | true =>
      simp only [hS, if_true]
      cases hC : batchChunks cfg.rnn_batch_size
          (hk.validSamples (global_step_of nb e i)) with
      | nil => exact absurd hC (hvs _)
      | cons b cs =>
        have hb : b = (hk.validSamples (global_step_of nb e i)).take cfg.rnn_batch_size :=
          batchChunks_head hC
        subst hb
        obtain ⟨ihe, ihc, ihs⟩ := ih (hk.trainF p (e, i)).1
          (some (hk.validF (hk.trainF p (e, i)).1
            ((hk.validSamples (global_step_of nb e i)).take cfg.rnn_batch_size)))
        refine ⟨ihe, ?_, ?_⟩
        · rw [ckptData_append, List.filter_cons]
          cases hK : firesAt cfg.rnn_ckpt_step (global_step_of nb e i) with
          | false => simp [hK, ckptData, ihc]
          | true => simp [hK, ckptData, ihc]
        · rw [summaryData_append, List.filter_cons]
          cases hK : firesAt cfg.rnn_ckpt_step (global_step_of nb e i) with
          | false => simp [hK, hS, summaryData, ihs]
          | true => simp [hK, hS, summaryData, ihs]

/-! ### The global step enumerates `range (num_epochs * num_batch)` -/

theorem iterSeq_map_gs (E B : Nat) :
    (iterSeq E B).map (fun ei => global_step_of B ei.1 ei.2) = List.range (E * B) := by
  induction E with
  | zero => simp [iterSeq]
  | succ e ih =>
    rw [iterSeq, List.range_succ, List.flatMap_append]
    rw [List.map_append]
    have h1 : (List.range e).flatMap (fun a => (List.range B).map fun i => (a, i))
        = iterSeq e B := rfl
    rw [h1, ih]
    have h2 : ([e].flatMap fun a => (List.range B).map fun i => (a, i))
        = (List.range B).map fun i => (e, i) := by simp
    rw [h2, List.map_map]
    rw [Nat.succ_mul, List.range_add]
    congr 1
    apply List.map_congr_left
    intro x _
    simp [global_step_of, Function.comp, Nat.mul_comm]

theorem iterSeq_gs_sorted (E B : Nat) :
    List.Chain' (· < ·) ((iterSeq E B).map fun ei => global_step_of B ei.1 ei.2) := by
  rw [iterSeq_map_gs]
  exact (List.pairwise_lt_range (E * B)).chain'

theorem iterSeq_nodup (E B : Nat) : (iterSeq E B).Nodup := by
  have h := iterSeq_map_gs E B
  have : ((iterSeq E B).map fun ei => global_step_of B ei.1 ei.2).Nodup := by
    rw [h]; exact List.nodup_range _
  exact this.of_map _

theorem iterSeq_cons_of_pos {E B : Nat} (hE : 0 < E) (hB : 0 < B) :
    ∃ rest, iterSeq E B = (0, 0) :: rest := by
  obtain ⟨e, rfl⟩ : ∃ e, E = e + 1 := ⟨E - 1, by omega⟩
  obtain ⟨b, rfl⟩ : ∃ b, B = b + 1 := ⟨B - 1, by omega⟩
  rw [iterSeq, List.range_succ_eq_map, List.flatMap_cons]
  rw [List.range_succ_eq_map, List.map_cons, List.cons_append]
  exact ⟨_, rfl⟩

/-- Unfolding of `mainRun` to the loop over the full iteration space. -/
theorem mainRun_eq (cfg : Config) (args : Args) (hk : Hooks P) (trainLen : Nat) :
    mainRun cfg args hk trainLen
      = runIters cfg args.ckpt_dir hk (lenDataLoader trainLen cfg.rnn_batch_size)
          (iterSeq cfg.rnn_num_epochs (lenDataLoader trainLen cfg.rnn_batch_size))
          (if cfg.to_init_rnn then hk.initW hk.init else hk.init) none := rfl

/-- C1: for every (non-aborting) run, the checkpoint writer fires exactly at
the global steps that are multiples of the configured checkpoint interval
(including step 0, since `0 % interval == 0`), each firing serializes the
current model parameters to exactly one file whose name encodes the triple
(global_step, epoch_idx, iter_idx), and these file names are pairwise
distinct across firings. -/
theorem checkpoint_writer_correct (cfg : Config) (args : Args) (hk : Hooks P)
    (trainLen : Nat)
    (_hck : 0 < cfg.rnn_ckpt_step)
    (hbs : cfg.rnn_batch_size ≠ 0)
    (hvs : ∀ gs, hk.validSamples gs ≠ []) :
    ((ckptData (mainRun cfg args hk trainLen).events).map (fun x => x.1)
        = (List.range (cfg.rnn_num_epochs * lenDataLoader trainLen cfg.rnn_batch_size)).filter
            (firesAt cfg.rnn_ckpt_step))
    ∧ (∀ x ∈ ckptData (mainRun cfg args hk trainLen).events,
        x.2.2.2 = pathJoin args.ckpt_dir (ckptName x.1 x.2.1 x.2.2.1)
          ∧ x.1 = global_step_of (lenDataLoader trainLen cfg.rnn_batch_size) x.2.1 x.2.2.1)
    ∧ ((ckptData (mainRun cfg args hk trainLen).events).map (fun x => x.2.2.2)).Nodup := by
  have hvsC : ∀ gs, batchChunks cfg.rnn_batch_size (hk.validSamples gs) ≠ [] :=
    fun gs => batchChunks_ne_nil hbs (hvs gs)
  obtain ⟨-, hc, -⟩ := runIters_trace cfg args.ckpt_dir hk
    (lenDataLoader trainLen cfg.rnn_batch_size) hvsC
    (iterSeq cfg.rnn_num_epochs (lenDataLoader trainLen cfg.rnn_batch_size))
    (if cfg.to_init_rnn then hk.initW hk.init else hk.init) none
  rw [mainRun_eq, hc]
  refine ⟨?_, ?_, ?_⟩
  · rw [← iterSeq_map_gs cfg.rnn_num_epochs (lenDataLoader trainLen cfg.rnn_batch_size)]
    rw [List.filter_map, List.map_map]
    rfl
  · intro x hx
    obtain ⟨ei, _, rfl⟩ := List.mem_map.mp hx
    exact ⟨rfl, rfl⟩
  · rw [List.map_map]
    apply List.Nodup.map
    · intro a b hab
      simp only [Function.comp_apply] at hab
      have h1 : ckptName (global_step_of (lenDataLoader trainLen cfg.rnn_batch_size) a.1 a.2) a.1 a.2
          = ckptName (global_step_of (lenDataLoader trainLen cfg.rnn_batch_size) b.1 b.2) b.1 b.2 :=
        pathJoin_inj hab
      obtain ⟨-, he, hi⟩ := ckptName_inj h1
      exact Prod.ext he hi
    · exact (iterSeq_nodup _ _).filter _

/-- C2: the metric logger fires exactly at the global steps that are
multiples of the configured summary interval, and at each firing it draws
exactly one batch from the validation iterator (the inner loop exits after
the first batch) before appending the scalar record keyed by the global
step. -/
theorem metric_logger_correct (cfg : Config) (args : Args) (hk : Hooks P)
    (trainLen : Nat)
    (_hss : 0 < cfg.rnn_summary_step)
    (hbs : cfg.rnn_batch_size ≠ 0)
    (hvs : ∀ gs, hk.validSamples gs ≠ []) :
    ((summaryData (mainRun cfg args hk trainLen).events).map (fun x => x.1)
        = (List.range (cfg.rnn_num_epochs * lenDataLoader trainLen cfg.rnn_batch_size)).filter
            (firesAt cfg.rnn_summary_step))
    ∧ (∀ x ∈ summaryData (mainRun cfg args hk trainLen).events, x.2.length = 1) := by
  have hvsC : ∀ gs, batchChunks cfg.rnn_batch_size (hk.validSamples gs) ≠ [] :=
    fun gs => batchChunks_ne_nil hbs (hvs gs)
  obtain ⟨-, -, hs⟩ := runIters_trace cfg args.ckpt_dir hk
    (lenDataLoader trainLen cfg.rnn_batch_size) hvsC
    (iterSeq cfg.rnn_num_epochs (lenDataLoader trainLen cfg.rnn_batch_size))
    (if cfg.to_init_rnn then hk.initW hk.init else hk.init) none
  rw [mainRun_eq, hs]
  constructor
  · rw [← iterSeq_map_gs cfg.rnn_num_epochs (lenDataLoader trainLen cfg.rnn_batch_size)]
    rw [List.filter_map, List.map_map]
    rfl
  · intro x hx
    obtain ⟨ei, _, rfl⟩ := List.mem_map.mp hx
    rfl

/-- C9: the `--resume` flag is parsed but never read by `main()`: two runs
whose arguments differ only in `resume` produce identical traces, errors and
final parameters. -/
theorem resume_flag_unused (cfg : Config) (hk : Hooks P) (trainLen : Nat)
    (args : Args) (r : Bool) :
    mainRun cfg { args with resume := r } hk trainLen
      = mainRun cfg args hk trainLen := rfl

/-- C5: for every iteration of the main loop, the global step equals
(epoch_index x batches_per_epoch) + batch_index_within_epoch, and across
consecutive iterations these values are strictly increasing (the loop
enumerates exactly `range (num_epochs * num_batch)`). -/
theorem global_step_enumeration (num_epochs num_batch : Nat) :
    ((iterSeq num_epochs num_batch).map
        (fun ei => global_step_of num_batch ei.1 ei.2)
      = List.range (num_epochs * num_batch))
    ∧ List.Chain' (· < ·) ((iterSeq num_epochs num_batch).map
        fun ei => global_step_of num_batch ei.1 ei.2) :=
  ⟨iterSeq_map_gs num_epochs num_batch, iterSeq_gs_sorted num_epochs num_batch⟩

/-- C6: the derived timing error `num_steps * (1 - acc) * step_stride / 2`
is non-negative for accuracies in [0, 1] and non-negative `num_steps`,
`step_stride`, and it decreases monotonically as accuracy increases.  Both
the train side (line 61) and the valid side (line 71) apply this same
`timingError`. -/
theorem timingError_nonneg_antitone (ns ss a b : ℚ) (hns : 0 ≤ ns)
    (hss : 0 ≤ ss) (_ha0 : 0 ≤ a) (_ha1 : a ≤ 1) (_hb0 : 0 ≤ b) (hb1 : b ≤ 1)
    (hab : a ≤ b) :
    0 ≤ timingError ns ss b ∧ timingError ns ss b ≤ timingError ns ss a := by
  unfold timingError
  constructor
  · have h1 : 0 ≤ ns * (1 - b) * ss :=
      mul_nonneg (mul_nonneg hns (by linarith)) hss
    linarith
  · have h2 : ns * (1 - b) * ss ≤ ns * (1 - a) * ss := by
      nlinarith [mul_nonneg hns hss]
    linarith

/-- C6 witness at `num_steps = 16`, `step_stride = 2`, accuracies 1/2 and 1. -/
theorem timingError_nonneg_antitone_witness :
    0 ≤ timingError 16 2 1 ∧ timingError 16 2 1 ≤ timingError 16 2 (1/2) :=
  timingError_nonneg_antitone 16 2 (1/2) 1 (by norm_num) (by norm_num)
    (by norm_num) (by norm_num) (by norm_num) (by norm_num) (by norm_num)

/-- C3: `train_step` performs exactly one optimizer update: the resulting
parameters are a single application of the optimizer update to the incoming
parameters with the gradient of the current loss, the accumulated gradient
at update time is exactly that fresh gradient (because `zero_grad` precedes
`backward`), and the result is independent of whatever gradients were
accumulated before the call. -/
theorem train_step_one_update [AddZeroClass G] (M : ModelEnv P G D)
    (s : NetState P G) (g : G) (data : D) (target : List (List Nat)) :
    (train_step M s data target).2.params
        = M.upd s.params (M.gradF s.params data target.flatten)
    ∧ (train_step M s data target).2.grads
        = M.gradF s.params data target.flatten
    ∧ train_step M { s with grads := g } data target
        = train_step M s data target := by
  refine ⟨?_, ?_, rfl⟩
  · show M.upd s.params ((0 : G) + M.gradF s.params data target.flatten) = _
    rw [zero_add]
  · show (0 : G) + M.gradF s.params data target.flatten = _
    rw [zero_add]

/-- C3 witness at the concrete environment `envW`. -/
theorem train_step_one_update_witness :
    (train_step envW sW () [[0]]).2.params = envW.upd sW.params (envW.gradF sW.params () [[0]].flatten)
    ∧ (train_step envW sW () [[0]]).2.grads = envW.gradF sW.params () [[0]].flatten
    ∧ train_step envW { sW with grads := 9 } () [[0]] = train_step envW sW () [[0]] :=
  train_step_one_update envW sW 9 () [[0]]

/-- C4: `valid_step` runs the identical forward computation as `train_step`
(the shared `forwardMetrics`) but in evaluation mode, and performs no
gradient computation and no parameter update: parameters and gradients after
the call equal those before. -/
theorem valid_step_no_update [Zero G] [Add G] (M : ModelEnv P G D)
    (s : NetState P G) (data : D) (target : List (List Nat)) :
    (valid_step M s data target).2.params = s.params
    ∧ (valid_step M s data target).2.grads = s.grads
    ∧ (valid_step M s data target).1 = forwardMetrics M s.params Mode.eval data target
    ∧ (train_step M s data target).1 = forwardMetrics M s.params Mode.train data target :=
  ⟨rfl, rfl, rfl, rfl⟩

/-- C4 witness at the concrete environment `envW`. -/
theorem valid_step_no_update_witness :
    (valid_step envW sW () [[0]]).2.params = sW.params
    ∧ (valid_step envW sW () [[0]]).2.grads = sW.grads
    ∧ (valid_step envW sW () [[0]]).1 = forwardMetrics envW sW.params Mode.eval () [[0]]
    ∧ (train_step envW sW () [[0]]).1 = forwardMetrics envW sW.params Mode.train () [[0]] :=
  valid_step_no_update envW sW () [[0]]

theorem frac_count_mem_unit {preds tgt : List Nat} (h : 0 < tgt.length) :
    0 ≤ ((((preds.zip tgt).countP fun pc => pc.1 == pc.2 : Nat) : ℚ) / (tgt.length : ℚ))
    ∧ ((((preds.zip tgt).countP fun pc => pc.1 == pc.2 : Nat) : ℚ) / (tgt.length : ℚ)) ≤ 1 := by
  have hc : (preds.zip tgt).countP (fun pc => pc.1 == pc.2) ≤ tgt.length := by
    calc (preds.zip tgt).countP (fun pc => pc.1 == pc.2)
        ≤ (preds.zip tgt).length := List.countP_le_length _
      _ ≤ tgt.length := by rw [List.length_zip]; omega
  have hL : (0:ℚ) < (tgt.length : ℚ) := by exact_mod_cast h
  constructor
  · positivity
  · rw [div_le_one hL]
    exact_mod_cast hc

/-- C7: the accuracy returned by `train_step` and `valid_step` equals the
number of flattened time steps whose arg-max predicted class equals the
label, divided by the total number of flattened time steps, and is always in
[0, 1] (for a non-empty batch; an empty batch divides by zero in Python). -/
theorem accuracy_in_unit_interval [AddZeroClass G] (M : ModelEnv P G D)
    (s : NetState P G) (data : D) (target : List (List Nat))
    (h : 0 < target.flatten.length) :
    (train_step M s data target).1.1
        = (((((M.fwd s.params Mode.train data).flatten.map argmax3).zip
              target.flatten).countP fun pc => pc.1 == pc.2 : Nat) : ℚ)
            / (target.flatten.length : ℚ)
    ∧ (0 ≤ (train_step M s data target).1.1 ∧ (train_step M s data target).1.1 ≤ 1)
    ∧ (0 ≤ (valid_step M s data target).1.1 ∧ (valid_step M s data target).1.1 ≤ 1) := by
  refine ⟨rfl, ?_, ?_⟩
  · exact frac_count_mem_unit h
  · exact frac_count_mem_unit h

/-- C7 witness at the concrete environment `envW` (two time steps, one
matching prediction: accuracy 1/2). -/
theorem accuracy_in_unit_interval_witness :
    (0 < ([[0, 1]] : List (List Nat)).flatten.length)
    ∧ ((train_step envW sW () [[0, 1]]).1.1
        = (((((envW.fwd sW.params Mode.train ()).flatten.map argmax3).zip
              ([[0, 1]] : List (List Nat)).flatten).countP fun pc => pc.1 == pc.2 : Nat) : ℚ)
            / (([[0, 1]] : List (List Nat)).flatten.length : ℚ)
    ∧ (0 ≤ (train_step envW sW () [[0, 1]]).1.1 ∧ (train_step envW sW () [[0, 1]]).1.1 ≤ 1)
    ∧ (0 ≤ (valid_step envW sW () [[0, 1]]).1.1 ∧ (valid_step envW sW () [[0, 1]]).1.1 ≤ 1)) :=
  ⟨by decide, accuracy_in_unit_interval envW sW () [[0, 1]] (by decide)⟩

/-- C8 is false as stated: with summary interval 1, a validation split of
size 4 and training batch size 2 (one epoch, 1 train batch), the single
validation batch drawn at the logging event has size 2, not 4 — the
validation `BatchSampler` is built with the very `batch_size` used for
training (line 39), so the drawn batch size follows the training batch
size. -/
theorem valid_batch_size_counterexample :
    ¬ (∀ x ∈ summaryData (mainRun cfg8 argsW hk8 2).events,
        ∀ b ∈ x.2, b.length = 4) := by
  decide

/-- C8 (amended): at every logging event exactly one validation batch is
drawn, namely the first `batch_size` indices of the freshly sampled
validation stream, so its size is `min batch_size validLen` — it equals the
configured batch size (shared between training and validation loaders)
whenever the validation split has at least `batch_size` examples, and it is
not the constant 4. -/
theorem valid_batch_size_amended (cfg : Config) (args : Args) (hk : Hooks P)
    (trainLen validLen : Nat)
    (hbs : cfg.rnn_batch_size ≠ 0)
    (hlen : ∀ gs, (hk.validSamples gs).length = validLen)
    (hvl : 0 < validLen) :
    ∀ x ∈ summaryData (mainRun cfg args hk trainLen).events,
      x.2 = [(hk.validSamples x.1).take cfg.rnn_batch_size]
      ∧ ∀ b ∈ x.2, b.length = min cfg.rnn_batch_size validLen := by
  have hvs : ∀ gs, hk.validSamples gs ≠ [] := by
    intro gs hnil
    have := hlen gs
    rw [hnil] at this
    simp at this
    omega
  obtain ⟨-, -, hs⟩ := runIters_trace cfg args.ckpt_dir hk
    (lenDataLoader trainLen cfg.rnn_batch_size)
    (fun gs => batchChunks_ne_nil hbs (hvs gs))
    (iterSeq cfg.rnn_num_epochs (lenDataLoader trainLen cfg.rnn_batch_size))
    (if cfg.to_init_rnn then hk.initW hk.init else hk.init) none
  rw [mainRun_eq, hs]
  intro x hx
  obtain ⟨ei, _, rfl⟩ := List.mem_map.mp hx
  refine ⟨rfl, ?_⟩
  intro b hb
  simp only [List.mem_singleton] at hb
  subst hb
  rw [List.length_take, hlen]

/-- C8 (amended) witness: in the scenario of the counterexample the single
logging event draws exactly the batch `[0, 1]`, of size `min 2 4 = 2`. -/
theorem valid_batch_size_amended_witness :
    ([[0, 1]] : List (List Nat)) = [(hk8.validSamples 0).take cfg8.rnn_batch_size]
    ∧ ([0, 1] : List Nat).length = min cfg8.rnn_batch_size 4 := by
  have h := valid_batch_size_amended cfg8 argsW hk8 2 4 (by decide) (fun _ => rfl)
    (by decide) (0, [[0, 1]]) (by decide)
  exact ⟨h.1, h.2 [0, 1] (by decide)⟩

/-- C10: if a summary-triggered step (the very first iteration, since
`0 % summary_step == 0`) runs while the validation iterator yields no
batches, the logging code reads the never-assigned `valid_acc`/`valid_loss`
and the run aborts with a NameError; with a non-empty validation split the
logger is well-defined and no error is ever raised. -/
theorem empty_valid_split_fails (cfg : Config) (args : Args) (hk : Hooks P)
    (trainLen : Nat) :
    ((∀ gs, hk.validSamples gs = []) → 0 < cfg.rnn_num_epochs →
      0 < lenDataLoader trainLen cfg.rnn_batch_size →
      (mainRun cfg args hk trainLen).error
        = some "NameError: valid_acc is not defined")
    ∧ ((∀ gs, hk.validSamples gs ≠ []) → cfg.rnn_batch_size ≠ 0 →
      (mainRun cfg args hk trainLen).error = none) := by
  constructor
  · intro hempty hE hnb
    obtain ⟨rest, hrest⟩ := iterSeq_cons_of_pos hE hnb
    rw [mainRun_eq, hrest]
    have hgs : global_step_of (lenDataLoader trainLen cfg.rnn_batch_size) 0 0
        = 0 := by simp [global_step_of]
    have hfs : firesAt cfg.rnn_summary_step 0 = true := by simp [firesAt]
    simp only [runIters, hgs, hfs, if_true, hempty, batchChunks_nil]
  · intro hvs hbs
    rw [mainRun_eq]
    exact (runIters_trace cfg args.ckpt_dir hk _
      (fun gs => batchChunks_ne_nil hbs (hvs gs)) _ _ _).1

/-- C10 witness: a concrete empty-validation run aborts with the NameError
and a concrete non-empty run raises no error. -/
theorem empty_valid_split_fails_witness :
    (mainRun cfgW argsW hkEmpty 2).error
      = some "NameError: valid_acc is not defined"
    ∧ (mainRun cfgW argsW hkW 2).error = none :=
  ⟨(empty_valid_split_fails cfgW argsW hkEmpty 2).1 (fun _ => rfl) (by decide)
      (by decide),
   (empty_valid_split_fails cfgW argsW hkW 2).2 (fun gs => by simp [hkW])
      (by decide)⟩

/-- C1 witness: two epochs of one batch, checkpoint interval 2 — the
firing steps and the distinctness of the written paths, concretely. -/
theorem checkpoint_writer_correct_witness :
    (((ckptData (mainRun cfgW argsW hkW 2).events).map (fun x => x.1)
        = (List.range (cfgW.rnn_num_epochs * lenDataLoader 2 cfgW.rnn_batch_size)).filter
            (firesAt cfgW.rnn_ckpt_step))
    ∧ ((ckptData (mainRun cfgW argsW hkW 2).events).map (fun x => x.2.2.2)).Nodup) :=
  ⟨(checkpoint_writer_correct cfgW argsW hkW 2 (by decide) (by decide)
      (fun gs => by simp [hkW])).1,
   (checkpoint_writer_correct cfgW argsW hkW 2 (by decide) (by decide)
      (fun gs => by simp [hkW])).2.2⟩

/-- C2 witness: summary interval 1 over a run of 4 steps — the firing
steps, concretely, and one drawn batch at the event of step 0. -/
theorem metric_logger_correct_witness :
    (((summaryData (mainRun cfgW argsW hkW 2).events).map (fun x => x.1)
        = (List.range (cfgW.rnn_num_epochs * lenDataLoader 2 cfgW.rnn_batch_size)).filter
            (firesAt cfgW.rnn_summary_step))
    ∧ (((0 : Nat), ([[0]] : List (List Nat))).2.length = 1)) :=
  ⟨(metric_logger_correct cfgW argsW hkW 2 (by decide) (by decide)
      (fun gs => by simp [hkW])).1,
   (metric_logger_correct cfgW argsW hkW 2 (by decide) (by decide)
      (fun gs => by simp [hkW])).2 (0, [[0]]) (by decide)⟩

/-- C9 witness: flipping `--resume` at concrete arguments changes nothing. -/
theorem resume_flag_unused_witness :
    mainRun cfgW { argsW with resume := true } hkW 2
      = mainRun cfgW argsW hkW 2 :=
  resume_flag_unused cfgW hkW 2 argsW true

/-- C5 witness at 2 epochs of 3 batches. -/
theorem global_step_enumeration_witness :
    ((iterSeq 2 3).map (fun ei => global_step_of 3 ei.1 ei.2)
        = List.range (2 * 3))
    ∧ List.Chain' (· < ·) ((iterSeq 2 3).map
        fun ei => global_step_of 3 ei.1 ei.2) :=
  global_step_enumeration 2 3
